import Mathlib

/-!
Shallow embedding of the NEMA GPU command-list interpreter
(hw/slate/nema.c together with its header, here nema.h).

The device interprets a guest-submitted command list: texture binds,
clip/blend/constant-color configuration, and drawing operations executed
either through the pixman compositor (fill rect, blit) or through cairo
path drawing (line, rect stroke, rounded rect fill/stroke).  The embedding
models:

* guest physical memory as a total byte function carried in `NEMAState`
  (the C code reads it through `cpu_physical_memory_*` /
  `address_space_rw`; mapping failures are host conditions outside the
  model, so reads always succeed here);
* pixman images as explicit width/height/stride/data records; for 8-bit
  alpha masks `data` is the byte buffer exactly as in the C code, with
  `data.length = stride * height` for every image built by the embedding;
* `error_report` + `exit(EXIT_FAILURE)` as an `Except NemaFault` error /
  an `Option NemaFault` fault value;
* the cairo vector backend (external library) by events recording which
  operation ran and which clip rectangle, if any, was applied to it;
  the path rasterization itself is out of scope;
* `qemu_irq_raise` / `qemu_irq_lower` as a boolean level in the state.
-/

/-- NEMA_REG_OP register offset (nema.h). -/
def NEMA_REG_OP : Nat := 0

/-- NEMA_REG_SIG register offset (nema.h). -/
def NEMA_REG_SIG : Nat := 1

/-- Value written to NEMA_REG_OP to submit a command list (nema.h). -/
def NEMA_REG_OP_SUBMIT_COMMAND_LIST : Nat := 2

/-- Value written to NEMA_REG_SIG to acknowledge the completion irq (nema.h). -/
def NEMA_REG_OP_SIGNAL_RECEIVED : Nat := 3

/-- Maximum number of command records in a list (nema.h). -/
def NEMA_MAX_CMD_COUNT : Nat := 250

/-- Opcode constants from nema.h. -/
def NEMA_OP_BIND_TEX : Nat := 1

/-- SET_CLIP opcode (nema.h). -/
def NEMA_OP_SET_CLIP : Nat := 2

/-- SET_BLEND_BLIT opcode (nema.h). -/
def NEMA_OP_SET_BLEND_BLIT : Nat := 3

/-- SET_BLEND_FILL opcode (nema.h). -/
def NEMA_OP_SET_BLEND_FILL : Nat := 4

/-- SET_CONST_COLOR opcode (nema.h). -/
def NEMA_OP_SET_CONST_COLOR : Nat := 5

/-- DRAW_LINE opcode (nema.h). -/
def NEMA_OP_DRAW_LINE : Nat := 6

/-- BLIT opcode (nema.h). -/
def NEMA_OP_BLIT : Nat := 7

/-- FILL_RECT opcode (nema.h). -/
def NEMA_OP_FILL_RECT : Nat := 8

/-- DRAW_RECT opcode (nema.h). -/
def NEMA_OP_DRAW_RECT : Nat := 9

/-- FILL_RECT_ROUNDED opcode (nema.h). -/
def NEMA_OP_FILL_RECT_ROUNDED : Nat := 10

/-- DRAW_RECT_ROUNDED opcode (nema.h). -/
def NEMA_OP_DRAW_RECT_ROUNDED : Nat := 11

/-- Texture role selectors, from `nema_tex_t` in nema.h
(`NEMA_NOTEX = 0, NEMA_TEX0, NEMA_TEX1, NEMA_TEX2, NEMA_TEX3`). -/
def NEMA_TEX0 : Nat := 1

/-- Source texture selector (nema.h). -/
def NEMA_TEX1 : Nat := 2

/-- Mask texture selector (nema.h). -/
def NEMA_TEX3 : Nat := 4

/-- Blend flag: has-mask bit, `NEMA_BL_MASK = 0x2` (nema.h). -/
def NEMA_BL_MASK : Nat := 2

/-- Blend flag: has-opacity bit, `NEMA_BL_OPA = 0x4` (nema.h). -/
def NEMA_BL_OPA : Nat := 4

/-- One fixed-layout command record, `nema_cmd_t` in nema.h.  The C fields
are 8/32-bit machine integers written by the guest; values are below the
corresponding width bound. -/
structure nema_cmd where
  op : Nat
  addr_a : Nat
  addr_b : Nat
  u_int_8_a : Nat
  u_int_a : Nat
  u_int_b : Nat
  u_int_c : Nat
  int_a : Int
  int_b : Int
  int_c : Int
  int_d : Int
deriving DecidableEq

instance : Inhabited nema_cmd := ⟨⟨0, 0, 0, 0, 0, 0, 0, 0, 0, 0, 0⟩⟩

/-- A submitted command list, `nema_cmdlist_t` in nema.h: an array of
`NEMA_MAX_CMD_COUNT` records plus the `next_cmd_slot` count byte.  `list`
models the mapped guest memory holding the array; the C struct declares
exactly 250 slots, and the count field, being a `uint8_t`, can hold
251..255 as well. -/
structure nema_cmdlist where
  list : List nema_cmd
  next_cmd_slot : Nat
deriving DecidableEq

/-- An axis-aligned clip rectangle, `nema_region_t` in nema.h
(`int x; int y; uint32_t w; uint32_t h`). -/
structure nema_region where
  x : Int
  y : Int
  w : Nat
  h : Nat
deriving DecidableEq

/-- A pixman image (`pixman_image_t` bits image): geometry plus the backing
buffer.  For `PIXMAN_a8` masks `data` lists the buffer bytes exactly as in
the C code (`stride * height` of them); for ARGB images the interpretation
of `data` is fixed by `compositeOver` below. -/
structure pixman_image where
  width : Nat
  height : Nat
  stride : Nat
  data : List Nat
deriving DecidableEq

/-- The `blend_option_t` enum in nema.c; `BLEND_FILL` is 0, so a zeroed
context holds `fill`. -/
inductive blend_option where
  | fill
  | blit
deriving DecidableEq

/-- Fatal faults: each constructor stands for one `error_report` +
`exit(EXIT_FAILURE)` site reachable from command processing in nema.c. -/
inductive NemaFault where
  | clipNotSet
  | destTexNotSet
  | destSurfaceNotSet
  | maskTexNotSet
  | maskTexSet
  | constColorNotSet
  | constColorSet
  | cairoMaskUnsupported
  | destTexNull
  | srcTexNull
  | invalidTexId
  | unsupportedCmd
deriving DecidableEq

/-- The per-submission `pipeline_ctx_t` of nema.c.  `dest_surface` /
`src_surface` are cairo surfaces; only their presence matters to the
interpreter logic, so they are modelled as `Option Unit`. -/
structure pipeline_ctx where
  dest_tex : Option pixman_image
  src_tex : Option pixman_image
  mask_tex : Option pixman_image
  dest_surface : Option Unit
  src_surface : Option Unit
  const_color : Nat
  const_color_set : Bool
  blending_mode : Nat
  blending_option : blend_option
deriving DecidableEq

/-- The all-zero `pipeline_ctx_t` (`= {0}` / `memset(.., 0, ..)`). -/
def initCtx : pipeline_ctx :=
  { dest_tex := none
    src_tex := none
    mask_tex := none
    dest_surface := none
    src_surface := none
    const_color := 0
    const_color_set := false
    blending_mode := 0
    blending_option := blend_option.fill }

/-- Device state `NEMAState` (nema.h): the persistent clip state, the
completion-irq level, and guest physical memory as a byte function. -/
structure NEMAState where
  mem : Nat → Nat
  irq : Bool
  has_clip_set : Bool
  pixman_clip_region : nema_region
  nema_clip_region : nema_region

/-- An observable step of the interpreter: a record dispatched at an index,
a drawing operation handed to a backend (with the clip rectangle it applied,
if any), or the completion interrupt being raised. -/
inductive Event where
  | dispatch : Nat → Event
  | draw : Nat → Option nema_region → Event
  | raiseIRQ : Event
deriving DecidableEq

/-- True exactly on `Event.dispatch` events. -/
def isDispatchEv : Event → Bool
  | Event.dispatch _ => true
  | _ => false

/-- `round_mask_if_needed` in nema.c: when an 8-bit mask's stride is not a
multiple of 4, build a new buffer whose rows are the source rows followed
by `(4 - stride % 4) % 4` zero bytes; when the stride is already a
multiple of 4 it returns NULL (here `none`). -/
def round_mask_if_needed (mask : List Nat) (stride height : Nat) : Option (List Nat) :=
  if stride % 4 = 0 then none
  else
    let padding := (4 - stride % 4) % 4
    some (List.flatten ((List.range height).map (fun i =>
      ((mask.drop (i * stride)).take stride) ++ List.replicate padding 0)))

/-- `cpu_physical_memory_read` / `address_space_rw` of `n` bytes starting
at `addr`; the C code picks the itcm address space for flash-range
addresses, but both spaces are views of guest memory, modelled by the
single byte function `mem`. -/
def readBytes (ds : NEMAState) (addr n : Nat) : List Nat :=
  (List.range n).map (fun i => ds.mem (addr + i) % 256)

/-- The `read_tex` path of nema.c for ARGB formats (`PIXMAN_a8r8g8b8`):
acquire `stride * height` bytes at `addr_a` and build the image with the
command's width, height and declared stride.  Mapping failures
(`cpu_physical_memory_map` length mismatch) are host-level conditions
outside the model. -/
def read_tex_argb (ds : NEMAState) (cmd : nema_cmd) : pixman_image :=
  { width := cmd.u_int_a
    height := cmd.u_int_b
    stride := cmd.int_a.toNat
    data := readBytes ds cmd.addr_a (cmd.int_a.toNat * cmd.u_int_b) }

/-- The `read_tex` path of nema.c for `PIXMAN_a8` masks: acquire the bytes,
then round the stride via `round_mask_if_needed`; when rounding happened the
buffer is replaced and the stride grows by `4 - stride % 4`. -/
def read_tex_a8 (ds : NEMAState) (cmd : nema_cmd) : pixman_image :=
  let stride := cmd.int_a.toNat
  let data := readBytes ds cmd.addr_a (stride * cmd.u_int_b)
  match round_mask_if_needed data stride cmd.u_int_b with
  | none => { width := cmd.u_int_a, height := cmd.u_int_b, stride := stride, data := data }
  | some rounded =>
      { width := cmd.u_int_a
        height := cmd.u_int_b
        stride := stride + (4 - stride % 4)
        data := rounded }

/-- `validate_ctx` in nema.c: the checks run in source order and the first
failing one reports and exits; `blend_mode & NEMA_BL_MASK` /
`& NEMA_BL_OPA` tests appear as `&&& ≠ 0`. -/
def validate_ctx (ds : NEMAState) (ctx : pipeline_ctx) : Option NemaFault :=
  if ds.has_clip_set = false then some NemaFault.clipNotSet
  else if ctx.dest_tex = none then some NemaFault.destTexNotSet
  else if ctx.dest_surface = none then some NemaFault.destSurfaceNotSet
  else if ctx.blending_mode &&& NEMA_BL_MASK ≠ 0 ∧ ctx.mask_tex = none then
    some NemaFault.maskTexNotSet
  else if ctx.blending_mode &&& NEMA_BL_MASK = 0 ∧ ctx.mask_tex ≠ none then
    some NemaFault.maskTexSet
  else if ctx.blending_mode &&& NEMA_BL_OPA ≠ 0 ∧ ctx.const_color_set = false then
    some NemaFault.constColorNotSet
  else if ctx.blending_mode &&& NEMA_BL_OPA = 0 ∧ ctx.const_color_set = true then
    some NemaFault.constColorSet
  else none

/-- `clean_up_ctx` in nema.c: unmap the pixman images, destroy the cairo
surfaces, then `memset(ctx, 0, sizeof(pipeline_ctx_t))` — the resulting
context is the all-zero one. -/
def clean_up_ctx (_ctx : pipeline_ctx) : pipeline_ctx := initCtx

/-- `blend_opacity_if_needed` in nema.c: nothing happens unless
`NEMA_BL_OPA` is set; then with no mask bound a uniform `PIXMAN_a8` mask the
size of the destination is allocated (stride rounded up to a multiple of 4
by `dest_width % 4 == 0 ? dest_width : ((dest_width >> 2) + 1) << 2`) and
filled with the constant color's top byte, while an existing mask has every
buffer byte scaled by `(byte * opacity) >> 8`. -/
def blend_opacity_if_needed (ctx : pipeline_ctx) : Except NemaFault pipeline_ctx :=
  if ctx.blending_mode &&& NEMA_BL_OPA = 0 then Except.ok ctx
  else
    let opacity := (ctx.const_color >>> 24) &&& 255
    match ctx.mask_tex with
    | none =>
      match ctx.dest_tex with
      | none => Except.error NemaFault.destTexNull
      | some dest =>
        let stride := if dest.width % 4 = 0 then dest.width else ((dest.width >>> 2) + 1) <<< 2
        let size := dest.height * stride
        let m : pixman_image :=
          { width := dest.width, height := dest.height, stride := stride
            data := List.replicate size opacity }
        Except.ok { ctx with mask_tex := some m }
    | some mask =>
      let m : pixman_image := { mask with data := mask.data.map (fun b => (b * opacity) >>> 8) }
      Except.ok { ctx with mask_tex := some m }

/-- ARGB channel quadruple of one 32-bit pixel. -/
structure argb where
  a : Nat
  r : Nat
  g : Nat
  b : Nat
deriving DecidableEq

/-- Split a 32-bit ARGB value into channels, as `argb32_to_cairo_color` /
the solid-fill construction do. -/
def unpackPix (p : Nat) : argb :=
  { a := (p >>> 24) &&& 255
    r := (p >>> 16) &&& 255
    g := (p >>> 8) &&& 255
    b := p &&& 255 }

/-- Repack channels into a 32-bit ARGB value. -/
def packPix (c : argb) : Nat :=
  (c.a <<< 24) + (c.r <<< 16) + (c.g <<< 8) + c.b

/-- Modelled from the spec: pixman's 8-bit fixed-point channel multiply
`MUL_UN8` (pixman is an external library; the spec's over operator scales a
channel by an alpha byte).  `mul8 a 255 = a` for byte inputs. -/
def mul8 (a b : Nat) : Nat :=
  let t := a * b + 128
  ((t >>> 8) + t) >>> 8

/-- Mask byte at `(x, y)`: the `PIXMAN_a8` buffer is indexed by
`y * stride + x`. -/
def maskVal (m : pixman_image) (x y : Nat) : Nat :=
  m.data.getD (y * m.stride + x) 0

/-- Scale one source channel by the mask byte, if a mask is present. -/
def srcFactor : Option Nat → Nat → Nat
  | none, c => c
  | some mv, c => mul8 c mv

/-- Modelled from the spec: the premultiplied source-over operator
(`destination = source * alpha + destination * (1 - alpha)`), with an
optional a8 mask modulating every source channel. -/
def overPix (s : argb) (m : Option Nat) (d : argb) : argb :=
  let sa := srcFactor m s.a
  let sr := srcFactor m s.r
  let sg := srcFactor m s.g
  let sb := srcFactor m s.b
  { a := sa + mul8 d.a (255 - sa)
    r := sr + mul8 d.r (255 - sa)
    g := sg + mul8 d.g (255 - sa)
    b := sb + mul8 d.b (255 - sa) }

/-- Does destination pixel `(x, y)` lie inside the composite rectangle
anchored at `(rx, ry)` with extent `rw × rh`? -/
def inRect (x y : Nat) (rx ry : Int) (rw rh : Nat) : Bool :=
  decide (rx ≤ (x : Int) ∧ (x : Int) < rx + rw ∧ ry ≤ (y : Int) ∧ (y : Int) < ry + rh)

/-- Does destination pixel `(x, y)` lie inside the clip rectangle? -/
def inClipRegion (c : nema_region) (x y : Nat) : Bool :=
  decide (c.x ≤ (x : Int) ∧ (x : Int) < c.x + c.w ∧ c.y ≤ (y : Int) ∧ (y : Int) < c.y + c.h)

/-- Modelled from the spec: `pixman_image_composite(PIXMAN_OP_OVER, ...)`
after `pixman_image_set_clip_region` (pixman is an external library).
Destination pixels are indexed `y * width + x` in `data`; a pixel changes
exactly when it lies in the requested rectangle and in the clip region, and
the optional a8 mask is sampled at the destination coordinates (the masks
built by this device cover the whole destination). -/
def compositeOver (clip : nema_region) (srcAt : Nat → Nat → argb) (mask : Option pixman_image)
    (dest : pixman_image) (rx ry : Int) (rw rh : Nat) : pixman_image :=
  { dest with data := (List.range (dest.width * dest.height)).map (fun idx =>
      let x := idx % dest.width
      let y := idx / dest.width
      if inRect x y rx ry rw rh && inClipRegion clip x y then
        packPix (overPix (srcAt x y) (mask.map (fun m => maskVal m x y))
          (unpackPix (dest.data.getD idx 0)))
      else dest.data.getD idx 0) }

/-- `execute_fill_rect` in nema.c: validate, build the solid fill from
`cmd.u_int_c` (the `qemu_pixman_color` round trip keeps the 8-bit
channels), run `blend_opacity_if_needed`, set the clip region and composite
over the rectangle `(int_a, int_b, u_int_a, u_int_b)`. -/
def execute_fill_rect (ds : NEMAState) (cmd : nema_cmd) (ctx : pipeline_ctx) :
    Except NemaFault pipeline_ctx :=
  match validate_ctx ds ctx with
  | some f => Except.error f
  | none =>
    match blend_opacity_if_needed ctx with
    | Except.error f => Except.error f
    | Except.ok ctx2 =>
      match ctx2.dest_tex with
      | none => Except.error NemaFault.destTexNull
      | some dest =>
        let d2 := compositeOver ds.pixman_clip_region (fun _ _ => unpackPix cmd.u_int_c)
          ctx2.mask_tex dest cmd.int_a cmd.int_b cmd.u_int_a cmd.u_int_b
        Except.ok { ctx2 with dest_tex := some d2 }

/-- `execute_blit` in nema.c: validate, `assert_not_null` on destination and
source textures, run `blend_opacity_if_needed`, set the clip region and
composite the source over the destination's full extent. -/
def execute_blit (ds : NEMAState) (ctx : pipeline_ctx) : Except NemaFault pipeline_ctx :=
  match validate_ctx ds ctx with
  | some f => Except.error f
  | none =>
    match ctx.dest_tex with
    | none => Except.error NemaFault.destTexNull
    | some _ =>
      match ctx.src_tex with
      | none => Except.error NemaFault.srcTexNull
      | some src =>
        match blend_opacity_if_needed ctx with
        | Except.error f => Except.error f
        | Except.ok ctx2 =>
          match ctx2.dest_tex with
          | none => Except.error NemaFault.destTexNull
          | some dest =>
            let d2 := compositeOver ds.pixman_clip_region
              (fun x y => unpackPix (src.data.getD (y * src.width + x) 0))
              ctx2.mask_tex dest 0 0 dest.width dest.height
            Except.ok { ctx2 with dest_tex := some d2 }

/-- `execute_draw_line` in nema.c: `cairo_prepare_source` exits when a mask
is bound; otherwise the line is stroked through cairo with
`cairo_apply_clip(cr, &ds->nema_clip_region)` applied first.  The event
records the operation and the clip it honoured. -/
def execute_draw_line (ds : NEMAState) (_cmd : nema_cmd) (ctx : pipeline_ctx) :
    Except NemaFault Event :=
  if ctx.mask_tex.isSome then Except.error NemaFault.cairoMaskUnsupported
  else Except.ok (Event.draw NEMA_OP_DRAW_LINE (some ds.nema_clip_region))

/-- `execute_draw_rect` in nema.c: the rectangle is stroked through cairo
with no `validate_ctx` call and no `cairo_apply_clip` call — the event's
clip component is `none`. -/
def execute_draw_rect (_ds : NEMAState) (_cmd : nema_cmd) (_ctx : pipeline_ctx) : Event :=
  Event.draw NEMA_OP_DRAW_RECT none

/-- `execute_fill_rect_rounded` in nema.c: cairo path fill with
`cairo_apply_clip` on the persistent clip, no validation, no
`cairo_prepare_source`. -/
def execute_fill_rect_rounded (ds : NEMAState) (_cmd : nema_cmd) (_ctx : pipeline_ctx) : Event :=
  Event.draw NEMA_OP_FILL_RECT_ROUNDED (some ds.nema_clip_region)

/-- `execute_draw_rect_rounded` in nema.c: cairo path stroke with
`cairo_apply_clip` on the persistent clip, no validation. -/
def execute_draw_rect_rounded (ds : NEMAState) (_cmd : nema_cmd) (_ctx : pipeline_ctx) : Event :=
  Event.draw NEMA_OP_DRAW_RECT_ROUNDED (some ds.nema_clip_region)

/-- The case labels of the `switch (cmd.op)` in `process_cmd`;
`unsupported` is the `default` label. -/
inductive nema_op where
  | bind_tex
  | set_clip
  | set_blend_blit
  | set_blend_fill
  | set_const_color
  | draw_line
  | blit
  | fill_rect
  | draw_rect
  | fill_rect_rounded
  | draw_rect_rounded
  | unsupported
deriving DecidableEq

/-- Map the record's opcode byte to its switch case. -/
def decode_op (op : Nat) : nema_op :=
  if op = NEMA_OP_BIND_TEX then nema_op.bind_tex
  else if op = NEMA_OP_SET_CLIP then nema_op.set_clip
  else if op = NEMA_OP_SET_BLEND_BLIT then nema_op.set_blend_blit
  else if op = NEMA_OP_SET_BLEND_FILL then nema_op.set_blend_fill
  else if op = NEMA_OP_SET_CONST_COLOR then nema_op.set_const_color
  else if op = NEMA_OP_DRAW_LINE then nema_op.draw_line
  else if op = NEMA_OP_BLIT then nema_op.blit
  else if op = NEMA_OP_FILL_RECT then nema_op.fill_rect
  else if op = NEMA_OP_DRAW_RECT then nema_op.draw_rect
  else if op = NEMA_OP_FILL_RECT_ROUNDED then nema_op.fill_rect_rounded
  else if op = NEMA_OP_DRAW_RECT_ROUNDED then nema_op.draw_rect_rounded
  else nema_op.unsupported

/-- The case labels of the inner `switch (cmd.u_int_8_a)` of the BIND_TEX
handler; `invalid` is its `default` label. -/
inductive nema_tex_role where
  | dest
  | src
  | mask
  | invalid
deriving DecidableEq

/-- Map the texture selector byte to its switch case (`NEMA_TEX0` is the
destination, `NEMA_TEX1` the source, `NEMA_TEX3` the mask). -/
def decode_tex (sel : Nat) : nema_tex_role :=
  if sel = NEMA_TEX0 then nema_tex_role.dest
  else if sel = NEMA_TEX1 then nema_tex_role.src
  else if sel = NEMA_TEX3 then nema_tex_role.mask
  else nema_tex_role.invalid

/-- The body of the inner `switch (cmd.u_int_8_a)` of the BIND_TEX case of
`process_cmd` in nema.c, one equation per case label. -/
def run_bind_tex (ds : NEMAState) (cmd : nema_cmd) (ctx : pipeline_ctx) :
    nema_tex_role → Except NemaFault (NEMAState × pipeline_ctx × List Event)
  | nema_tex_role.dest =>
    let img := read_tex_argb ds cmd
    Except.ok (ds, { ctx with dest_tex := some img, dest_surface := some () }, [])
  | nema_tex_role.src =>
    Except.ok (ds, { ctx with src_tex := some (read_tex_argb ds cmd) }, [])
  | nema_tex_role.mask =>
    Except.ok (ds, { ctx with mask_tex := some (read_tex_a8 ds cmd) }, [])
  | nema_tex_role.invalid => Except.error NemaFault.invalidTexId

/-- The body of one `switch (cmd.op)` case of `process_cmd` in nema.c:
texture binds select the role from `u_int_8_a`; drawing operations run
their handler and then `clean_up_ctx`; an invalid texture selector or an
unsupported opcode exits. -/
def run_op (ds : NEMAState) (cmd : nema_cmd) (ctx : pipeline_ctx) :
    nema_op → Except NemaFault (NEMAState × pipeline_ctx × List Event)
  | nema_op.bind_tex => run_bind_tex ds cmd ctx (decode_tex cmd.u_int_8_a)
  | nema_op.set_clip =>
    let r : nema_region := { x := cmd.int_a, y := cmd.int_b, w := cmd.u_int_a, h := cmd.u_int_b }
    let ds2 := { ds with pixman_clip_region := r, nema_clip_region := r, has_clip_set := true }
    Except.ok (ds2, ctx, [])
  | nema_op.set_blend_blit =>
    let c2 := { ctx with blending_option := blend_option.blit, blending_mode := cmd.u_int_a % 256 }
    Except.ok (ds, c2, [])
  | nema_op.set_blend_fill =>
    let c2 := { ctx with blending_option := blend_option.fill, blending_mode := cmd.u_int_a % 256 }
    Except.ok (ds, c2, [])
  | nema_op.set_const_color =>
    Except.ok (ds, { ctx with const_color := cmd.u_int_a, const_color_set := true }, [])
  | nema_op.draw_line =>
    match execute_draw_line ds cmd ctx with
    | Except.error f => Except.error f
    | Except.ok ev => Except.ok (ds, clean_up_ctx ctx, [ev])
  | nema_op.blit =>
    match execute_blit ds ctx with
    | Except.error f => Except.error f
    | Except.ok ctx2 =>
      Except.ok (ds, clean_up_ctx ctx2, [Event.draw NEMA_OP_BLIT (some ds.pixman_clip_region)])
  | nema_op.fill_rect =>
    match execute_fill_rect ds cmd ctx with
    | Except.error f => Except.error f
    | Except.ok ctx2 =>
      Except.ok (ds, clean_up_ctx ctx2,
        [Event.draw NEMA_OP_FILL_RECT (some ds.pixman_clip_region)])
  | nema_op.draw_rect =>
    Except.ok (ds, clean_up_ctx ctx, [execute_draw_rect ds cmd ctx])
  | nema_op.fill_rect_rounded =>
    Except.ok (ds, clean_up_ctx ctx, [execute_fill_rect_rounded ds cmd ctx])
  | nema_op.draw_rect_rounded =>
    Except.ok (ds, clean_up_ctx ctx, [execute_draw_rect_rounded ds cmd ctx])
  | nema_op.unsupported => Except.error NemaFault.unsupportedCmd

/-- `process_cmd` in nema.c: dispatch one record on its opcode. -/
def process_cmd (ds : NEMAState) (cmd : nema_cmd) (ctx : pipeline_ctx) :
    Except NemaFault (NEMAState × pipeline_ctx × List Event) :=
  run_op ds cmd ctx (decode_op cmd.op)

/-- The loop body of `process_cl`:
`for (uint8_t i = 0; i < cl->next_cmd_slot; i++) process_cmd(ds, cl->list[i], &ctx);`
unrolled as recursion on the remaining count, starting at index `i`.  Each
step reads `cl->list[i]` (out-of-range indices read whatever the mapped
memory holds, `getD` with the zero record as the arbitrary value), emits a
dispatch event and runs `process_cmd`; a fault aborts the loop. -/
def run_from (cl : nema_cmdlist) : Nat → Nat → NEMAState → pipeline_ctx →
    Option NemaFault × NEMAState × List Event
  | _, 0, ds, _ => (none, ds, [])
  | i, n + 1, ds, ctx =>
    match process_cmd ds (cl.list.getD i default) ctx with
    | Except.error f => (some f, ds, [Event.dispatch i])
    | Except.ok (ds1, ctx1, evs) =>
      match run_from cl (i + 1) n ds1 ctx1 with
      | (f, ds2, evs2) => (f, ds2, Event.dispatch i :: (evs ++ evs2))

/-- `process_cl` in nema.c: run every record from a freshly zeroed
`pipeline_ctx_t ctx = {0}`, then `qemu_irq_raise(ds->inst_processed)`.
A fault (`exit`) stops the loop and never raises the interrupt. -/
def process_cl (ds : NEMAState) (cl : nema_cmdlist) :
    Option NemaFault × NEMAState × List Event :=
  match run_from cl 0 cl.next_cmd_slot ds initCtx with
  | (some f, ds1, evs) => (some f, ds1, evs)
  | (none, ds1, evs) => (none, { ds1 with irq := true }, evs ++ [Event.raiseIRQ])

/-- `on_nema_io_write` in nema.c: value 2 at `NEMA_REG_OP` maps the command
list block from guest memory (`cl`, decoded from the bytes at
`NEMA_CL_MEM_START`; the byte-level struct decoding is outside the model)
and processes it; value 3 at `NEMA_REG_SIG` lowers the interrupt; any other
write is ignored. -/
def on_nema_io_write (ds : NEMAState) (offset val : Nat) (cl : nema_cmdlist)
    (_size : Nat) : Option NemaFault × NEMAState × List Event :=
  if offset = NEMA_REG_OP ∧ val = NEMA_REG_OP_SUBMIT_COMMAND_LIST then
    process_cl ds cl
  else if offset = NEMA_REG_SIG ∧ val = NEMA_REG_OP_SIGNAL_RECEIVED then
    (none, { ds with irq := false }, [])
  else (none, ds, [])

/-- `on_nema_io_read` in nema.c: `return 0;` for every offset and size,
leaving the device untouched. -/
def on_nema_io_read (ds : NEMAState) (_addr _size : Nat) : Nat × NEMAState :=
  (0, ds)


/-! Concrete fixtures used by witnesses and counterexamples. -/

/-- A device state with the clip never set and a quiet irq line. -/
def ds0 : NEMAState :=
  { mem := fun _ => 0, irq := false, has_clip_set := false
    pixman_clip_region := { x := 0, y := 0, w := 0, h := 0 }
    nema_clip_region := { x := 0, y := 0, w := 0, h := 0 } }

/-- A device state whose clip has been set to the 1×1 rectangle at the
origin. -/
def dsC : NEMAState :=
  { mem := fun _ => 0, irq := false, has_clip_set := true
    pixman_clip_region := { x := 0, y := 0, w := 1, h := 1 }
    nema_clip_region := { x := 0, y := 0, w := 1, h := 1 } }

/-- A 1×1 ARGB destination image holding a single transparent pixel. -/
def destImg : pixman_image := { width := 1, height := 1, stride := 4, data := [0] }

/-- A DRAW_RECT command record. -/
def drawRectCmd : nema_cmd :=
  { op := NEMA_OP_DRAW_RECT, addr_a := 0, addr_b := 0, u_int_8_a := 0, u_int_a := 4
    u_int_b := 4, u_int_c := 0, int_a := 0, int_b := 0, int_c := 0, int_d := 0 }

/-- A FILL_RECT_ROUNDED command record. -/
def fillRoundedCmd : nema_cmd :=
  { op := NEMA_OP_FILL_RECT_ROUNDED, addr_a := 0, addr_b := 0, u_int_8_a := 0, u_int_a := 4
    u_int_b := 4, u_int_c := 0, int_a := 0, int_b := 0, int_c := 1, int_d := 0 }

/-- A FILL_RECT command covering the 1×1 destination with opaque color. -/
def fillCmdC : nema_cmd :=
  { op := NEMA_OP_FILL_RECT, addr_a := 0, addr_b := 0, u_int_8_a := 0, u_int_a := 1
    u_int_b := 1, u_int_c := 0xFF123456, int_a := 0, int_b := 0, int_c := 0, int_d := 0 }

/-- A context holding a bound destination, simple blending (flag 0x1) and a
stale constant color value whose set-flag is clear. -/
def ctxC : pipeline_ctx :=
  { dest_tex := some destImg, src_tex := none, mask_tex := none, dest_surface := some ()
    src_surface := none, const_color := 7, const_color_set := false, blending_mode := 1
    blending_option := blend_option.fill }

/-! Helper lemmas shared between claims. -/

/-- The success condition of `validate_ctx`, as one conjunction. -/
theorem validate_ctx_eq_none_iff (ds : NEMAState) (ctx : pipeline_ctx) :
    validate_ctx ds ctx = none ↔
      (ds.has_clip_set = true ∧ ctx.dest_tex ≠ none ∧ ctx.dest_surface ≠ none ∧
        (ctx.blending_mode &&& NEMA_BL_MASK ≠ 0 ↔ ctx.mask_tex ≠ none) ∧
        (ctx.blending_mode &&& NEMA_BL_OPA ≠ 0 ↔ ctx.const_color_set = true)) := by
  cases hcs : ds.has_clip_set <;>
  cases hdt : ctx.dest_tex <;>
  cases hsf : ctx.dest_surface <;>
  cases hmt : ctx.mask_tex <;>
  cases hcc : ctx.const_color_set <;>
  by_cases hm : ctx.blending_mode &&& NEMA_BL_MASK = 0 <;>
  by_cases ho : ctx.blending_mode &&& NEMA_BL_OPA = 0 <;>
  simp [validate_ctx, hcs, hdt, hsf, hmt, hcc, hm, ho]

/-- A drawing opcode that ran successfully hands back the zeroed context. -/
theorem process_cmd_ok_ctx_initCtx (ds : NEMAState) (cmd : nema_cmd) (ctx : pipeline_ctx)
    (ds' : NEMAState) (ctx' : pipeline_ctx) (evs : List Event)
    (hop : cmd.op = NEMA_OP_DRAW_LINE ∨ cmd.op = NEMA_OP_BLIT ∨ cmd.op = NEMA_OP_FILL_RECT ∨
      cmd.op = NEMA_OP_DRAW_RECT ∨ cmd.op = NEMA_OP_FILL_RECT_ROUNDED ∨
      cmd.op = NEMA_OP_DRAW_RECT_ROUNDED)
    (h : process_cmd ds cmd ctx = Except.ok (ds', ctx', evs)) : ctx' = initCtx := by
  rcases hop with hop | hop | hop | hop | hop | hop <;>
    simp [process_cmd, run_op, run_bind_tex, decode_op, decode_tex, hop, NEMA_OP_BIND_TEX, NEMA_OP_SET_CLIP, NEMA_OP_SET_BLEND_BLIT,
      NEMA_OP_SET_BLEND_FILL, NEMA_OP_SET_CONST_COLOR, NEMA_OP_DRAW_LINE, NEMA_OP_BLIT,
      NEMA_OP_FILL_RECT, NEMA_OP_DRAW_RECT, NEMA_OP_FILL_RECT_ROUNDED,
      NEMA_OP_DRAW_RECT_ROUNDED, clean_up_ctx] at h <;>
    (try split at h) <;> simp_all [clean_up_ctx]

/-- C10: every read from the device's register region, at any offset and of
any size, returns 0 and changes no device state (`on_nema_io_read`). -/
theorem nema_C10_io_read_zero (ds : NEMAState) (addr size : Nat) :
    on_nema_io_read ds addr size = (0, ds) := rfl

/-- C9: DRAW_RECT strokes the destination surface with no `validate_ctx`
call and no clip applied — it succeeds for every device state and context,
including one where the clip was never set, and its draw event carries no
clip rectangle; DRAW_LINE by contrast applies the persistent clip
rectangle whenever it runs. -/
theorem nema_C9_draw_rect_no_clip_no_validation (ds : NEMAState) (cmd : nema_cmd)
    (ctx : pipeline_ctx) :
    (cmd.op = NEMA_OP_DRAW_RECT →
      process_cmd ds cmd ctx = Except.ok (ds, initCtx, [Event.draw NEMA_OP_DRAW_RECT none]))
    ∧ (cmd.op = NEMA_OP_DRAW_LINE → ctx.mask_tex = none →
      process_cmd ds cmd ctx =
        Except.ok (ds, initCtx, [Event.draw NEMA_OP_DRAW_LINE (some ds.nema_clip_region)])) := by
  constructor
  · intro hop
    simp [process_cmd, run_op, run_bind_tex, decode_op, decode_tex, hop, NEMA_OP_DRAW_RECT, NEMA_OP_BIND_TEX, NEMA_OP_SET_CLIP,
      NEMA_OP_SET_BLEND_BLIT, NEMA_OP_SET_BLEND_FILL, NEMA_OP_SET_CONST_COLOR,
      NEMA_OP_DRAW_LINE, NEMA_OP_BLIT, NEMA_OP_FILL_RECT, clean_up_ctx, execute_draw_rect]
  · intro hop hmask
    simp [process_cmd, run_op, run_bind_tex, decode_op, decode_tex, hop, NEMA_OP_DRAW_RECT, NEMA_OP_BIND_TEX, NEMA_OP_SET_CLIP,
      NEMA_OP_SET_BLEND_BLIT, NEMA_OP_SET_BLEND_FILL, NEMA_OP_SET_CONST_COLOR,
      NEMA_OP_DRAW_LINE, NEMA_OP_BLIT, NEMA_OP_FILL_RECT, clean_up_ctx,
      execute_draw_line, hmask]

/-- C9 witness: a DRAW_RECT dispatched with the clip never set and an empty
context succeeds and draws unclipped. -/
theorem nema_C9_witness :
    process_cmd ds0 drawRectCmd initCtx =
      Except.ok (ds0, initCtx, [Event.draw NEMA_OP_DRAW_RECT none]) :=
  (nema_C9_draw_rect_no_clip_no_validation ds0 drawRectCmd initCtx).1 rfl

/-- C2 (amended): only BLIT and FILL_RECT re-derive readiness through
`validate_ctx` — any missing destination texture/surface, unset clip, or
mask/constant-color flag mismatch makes them fault before touching pixels —
while DRAW_RECT and the rounded-rectangle operations run with no such
validation, and DRAW_LINE faults only when a mask is bound. -/
theorem nema_C2_validation_only_fill_blit (ds : NEMAState) (cmd : nema_cmd)
    (ctx : pipeline_ctx) :
    ((cmd.op = NEMA_OP_BLIT ∨ cmd.op = NEMA_OP_FILL_RECT) →
      (ds.has_clip_set = false ∨ ctx.dest_tex = none ∨ ctx.dest_surface = none ∨
        ¬(ctx.blending_mode &&& NEMA_BL_MASK ≠ 0 ↔ ctx.mask_tex ≠ none) ∨
        ¬(ctx.blending_mode &&& NEMA_BL_OPA ≠ 0 ↔ ctx.const_color_set = true)) →
      ∃ f, process_cmd ds cmd ctx = Except.error f)
    ∧ ((cmd.op = NEMA_OP_DRAW_RECT ∨ cmd.op = NEMA_OP_FILL_RECT_ROUNDED ∨
        cmd.op = NEMA_OP_DRAW_RECT_ROUNDED) →
      ∃ r, process_cmd ds cmd ctx = Except.ok r)
    ∧ (cmd.op = NEMA_OP_DRAW_LINE → ctx.mask_tex = none →
      ∃ r, process_cmd ds cmd ctx = Except.ok r) := by
  refine ⟨?_, ?_, ?_⟩
  · intro hop hbad
    have hne : validate_ctx ds ctx ≠ none := by
      intro h0
      rw [validate_ctx_eq_none_iff] at h0
      rcases hbad with h | h | h | h | h <;> simp_all
    obtain ⟨f, hf⟩ := Option.ne_none_iff_exists'.mp hne
    refine ⟨f, ?_⟩
    rcases hop with hop | hop <;>
      simp [process_cmd, run_op, run_bind_tex, decode_op, decode_tex, hop, NEMA_OP_BIND_TEX, NEMA_OP_SET_CLIP, NEMA_OP_SET_BLEND_BLIT,
        NEMA_OP_SET_BLEND_FILL, NEMA_OP_SET_CONST_COLOR, NEMA_OP_DRAW_LINE, NEMA_OP_BLIT,
        NEMA_OP_FILL_RECT, execute_blit, execute_fill_rect, hf]
  · intro hop
    rcases hop with hop | hop | hop
    · exact ⟨(ds, clean_up_ctx ctx, [execute_draw_rect ds cmd ctx]), by
        simp [process_cmd, run_op, run_bind_tex, decode_op, decode_tex, hop, NEMA_OP_BIND_TEX, NEMA_OP_SET_CLIP, NEMA_OP_SET_BLEND_BLIT,
          NEMA_OP_SET_BLEND_FILL, NEMA_OP_SET_CONST_COLOR, NEMA_OP_DRAW_LINE, NEMA_OP_BLIT,
          NEMA_OP_FILL_RECT, NEMA_OP_DRAW_RECT]⟩
    · exact ⟨(ds, clean_up_ctx ctx, [execute_fill_rect_rounded ds cmd ctx]), by
        simp [process_cmd, run_op, run_bind_tex, decode_op, decode_tex, hop, NEMA_OP_BIND_TEX, NEMA_OP_SET_CLIP, NEMA_OP_SET_BLEND_BLIT,
          NEMA_OP_SET_BLEND_FILL, NEMA_OP_SET_CONST_COLOR, NEMA_OP_DRAW_LINE, NEMA_OP_BLIT,
          NEMA_OP_FILL_RECT, NEMA_OP_DRAW_RECT, NEMA_OP_FILL_RECT_ROUNDED]⟩
    · exact ⟨(ds, clean_up_ctx ctx, [execute_draw_rect_rounded ds cmd ctx]), by
        simp [process_cmd, run_op, run_bind_tex, decode_op, decode_tex, hop, NEMA_OP_BIND_TEX, NEMA_OP_SET_CLIP, NEMA_OP_SET_BLEND_BLIT,
          NEMA_OP_SET_BLEND_FILL, NEMA_OP_SET_CONST_COLOR, NEMA_OP_DRAW_LINE, NEMA_OP_BLIT,
          NEMA_OP_FILL_RECT, NEMA_OP_DRAW_RECT, NEMA_OP_FILL_RECT_ROUNDED,
          NEMA_OP_DRAW_RECT_ROUNDED]⟩
  · intro hop hmask
    exact ⟨(ds, clean_up_ctx ctx, [Event.draw NEMA_OP_DRAW_LINE (some ds.nema_clip_region)]), by
      simp [process_cmd, run_op, run_bind_tex, decode_op, decode_tex, hop, NEMA_OP_BIND_TEX, NEMA_OP_SET_CLIP, NEMA_OP_SET_BLEND_BLIT,
        NEMA_OP_SET_BLEND_FILL, NEMA_OP_SET_CONST_COLOR, NEMA_OP_DRAW_LINE,
        execute_draw_line, hmask]⟩

/-- C2 counterexample: a FILL_RECT_ROUNDED dispatched with the clip never
set and a completely empty Pipeline Context does not fault — it runs and
returns successfully, so readiness is not re-derived before this drawing
operation. -/
theorem nema_C2_counterexample :
    ds0.has_clip_set = false ∧ initCtx.dest_tex = none ∧
      process_cmd ds0 fillRoundedCmd initCtx =
        Except.ok (ds0, initCtx,
          [Event.draw NEMA_OP_FILL_RECT_ROUNDED (some ds0.nema_clip_region)]) :=
  ⟨rfl, rfl, rfl⟩

/-- C3 (amended): the post-draw `clean_up_ctx` zeroes the whole Pipeline
Context: besides the destination/source/mask bindings it also clears the
blend-mode flags, the constant color and the constant-color-set flag, so
blend configuration does not persist to later bind+draw cycles. -/
theorem nema_C3_post_draw_clears_everything (ds : NEMAState) (cmd : nema_cmd)
    (ctx : pipeline_ctx) (ds' : NEMAState) (ctx' : pipeline_ctx) (evs : List Event)
    (hop : cmd.op = NEMA_OP_DRAW_LINE ∨ cmd.op = NEMA_OP_BLIT ∨ cmd.op = NEMA_OP_FILL_RECT ∨
      cmd.op = NEMA_OP_DRAW_RECT ∨ cmd.op = NEMA_OP_FILL_RECT_ROUNDED ∨
      cmd.op = NEMA_OP_DRAW_RECT_ROUNDED)
    (h : process_cmd ds cmd ctx = Except.ok (ds', ctx', evs)) :
    ctx'.dest_tex = none ∧ ctx'.src_tex = none ∧ ctx'.mask_tex = none ∧
      ctx'.dest_surface = none ∧ ctx'.src_surface = none ∧
      ctx'.blending_mode = 0 ∧ ctx'.const_color = 0 ∧ ctx'.const_color_set = false := by
  have hc := process_cmd_ok_ctx_initCtx ds cmd ctx ds' ctx' evs hop h
  subst hc
  exact ⟨rfl, rfl, rfl, rfl, rfl, rfl, rfl, rfl⟩

/-- C3 witness: the successful FILL_RECT on the concrete 1×1 destination
leaves the cleared context. -/
theorem nema_C3_amended_witness :
    initCtx.dest_tex = none ∧ initCtx.src_tex = none ∧ initCtx.mask_tex = none ∧
      initCtx.dest_surface = none ∧ initCtx.src_surface = none ∧
      initCtx.blending_mode = 0 ∧ initCtx.const_color = 0 ∧
      initCtx.const_color_set = false :=
  nema_C3_post_draw_clears_everything dsC fillCmdC ctxC dsC initCtx
    [Event.draw NEMA_OP_FILL_RECT (some dsC.pixman_clip_region)]
    (Or.inr (Or.inr (Or.inl rfl))) rfl

/-- C3 counterexample: a context with blend mode 0x1 and a stale constant
color 7 runs a successful FILL_RECT, after which blend mode and constant
color are 0 — they are cleared, not preserved, by the post-draw clean-up. -/
theorem nema_C3_counterexample :
    ctxC.blending_mode = 1 ∧ ctxC.const_color = 7 ∧
      process_cmd dsC fillCmdC ctxC =
        Except.ok (dsC, initCtx, [Event.draw NEMA_OP_FILL_RECT (some dsC.pixman_clip_region)]) ∧
      initCtx.blending_mode = 0 ∧ initCtx.const_color = 0 :=
  ⟨rfl, rfl, rfl, rfl, rfl⟩

/-- Decoding to the SET_CLIP case pins down the opcode value. -/
theorem decode_op_set_clip {op : Nat} (h : decode_op op = nema_op.set_clip) :
    op = NEMA_OP_SET_CLIP := by
  unfold decode_op at h
  repeat' split at h
  all_goals first | assumption | exact nema_op.noConfusion h

/-- A successfully processed record emits no dispatch events, never raises
the interrupt itself, and changes the device state only for SET_CLIP. -/
theorem process_cmd_ok_inv (ds : NEMAState) (cmd : nema_cmd) (ctx : pipeline_ctx)
    (ds' : NEMAState) (ctx' : pipeline_ctx) (evs : List Event)
    (h : process_cmd ds cmd ctx = Except.ok (ds', ctx', evs)) :
    (evs.filter isDispatchEv = [] ∧ evs.count Event.raiseIRQ = 0) ∧
      (cmd.op ≠ NEMA_OP_SET_CLIP → ds' = ds) := by
  unfold process_cmd at h
  cases hd : decode_op cmd.op <;> rw [hd] at h <;> simp only [run_op] at h
  case bind_tex =>
    cases hs : decode_tex cmd.u_int_8_a <;> rw [hs] at h <;> simp only [run_bind_tex] at h
    case invalid => exact Except.noConfusion h
    all_goals
      injection h with h'
      injection h' with ha hb
      injection hb with hb1 hb2
      subst hb2
      exact ⟨⟨rfl, rfl⟩, fun _ => ha.symm⟩
  case set_clip =>
    injection h with h'
    injection h' with ha hb
    injection hb with hb1 hb2
    subst hb2
    exact ⟨⟨rfl, rfl⟩, fun hop => absurd (decode_op_set_clip hd) hop⟩
  case set_blend_blit =>
    injection h with h'
    injection h' with ha hb
    injection hb with hb1 hb2
    subst hb2
    exact ⟨⟨rfl, rfl⟩, fun _ => ha.symm⟩
  case set_blend_fill =>
    injection h with h'
    injection h' with ha hb
    injection hb with hb1 hb2
    subst hb2
    exact ⟨⟨rfl, rfl⟩, fun _ => ha.symm⟩
  case set_const_color =>
    injection h with h'
    injection h' with ha hb
    injection hb with hb1 hb2
    subst hb2
    exact ⟨⟨rfl, rfl⟩, fun _ => ha.symm⟩
  case draw_line =>
    revert h
    cases hel : execute_draw_line ds cmd ctx with
    | error f => intro h; exact Except.noConfusion h
    | ok ev =>
      intro h
      injection h with h'
      injection h' with ha hb
      injection hb with hb1 hb2
      subst hb2
      unfold execute_draw_line at hel
      split at hel
      · exact Except.noConfusion hel
      · injection hel with hev
        subst hev
        refine ⟨⟨?_, ?_⟩, fun _ => ha.symm⟩ <;> simp [isDispatchEv]
  case blit =>
    revert h
    cases hel : execute_blit ds ctx with
    | error f => intro h; exact Except.noConfusion h
    | ok ctx2 =>
      intro h
      injection h with h'
      injection h' with ha hb
      injection hb with hb1 hb2
      subst hb2
      refine ⟨⟨?_, ?_⟩, fun _ => ha.symm⟩ <;> simp [isDispatchEv]
  case fill_rect =>
    revert h
    cases hel : execute_fill_rect ds cmd ctx with
    | error f => intro h; exact Except.noConfusion h
    | ok ctx2 =>
      intro h
      injection h with h'
      injection h' with ha hb
      injection hb with hb1 hb2
      subst hb2
      refine ⟨⟨?_, ?_⟩, fun _ => ha.symm⟩ <;> simp [isDispatchEv]
  case draw_rect =>
    injection h with h'
    injection h' with ha hb
    injection hb with hb1 hb2
    subst hb2
    refine ⟨⟨?_, ?_⟩, fun _ => ha.symm⟩ <;> simp [isDispatchEv, execute_draw_rect]
  case fill_rect_rounded =>
    injection h with h'
    injection h' with ha hb
    injection hb with hb1 hb2
    subst hb2
    refine ⟨⟨?_, ?_⟩, fun _ => ha.symm⟩ <;> simp [isDispatchEv, execute_fill_rect_rounded]
  case draw_rect_rounded =>
    injection h with h'
    injection h' with ha hb
    injection hb with hb1 hb2
    subst hb2
    refine ⟨⟨?_, ?_⟩, fun _ => ha.symm⟩ <;> simp [isDispatchEv, execute_draw_rect_rounded]
  case unsupported => exact Except.noConfusion h

/-- When the loop over a command list finishes without a fault, its trace
holds exactly the dispatch events for indices `i, i+1, ..., i+n-1`, in that
order, and no interrupt-raise event. -/
theorem run_from_none_spec (cl : nema_cmdlist) :
    ∀ n i ds ctx, (run_from cl i n ds ctx).1 = none →
      (run_from cl i n ds ctx).2.2.filter isDispatchEv =
        (List.range' i n).map Event.dispatch ∧
      (run_from cl i n ds ctx).2.2.count Event.raiseIRQ = 0 := by
  intro n
  induction n with
  | zero => intro i ds ctx _; simp [run_from]
  | succ k ih =>
    intro i ds ctx h
    rw [run_from] at h ⊢
    cases hp : process_cmd ds (cl.list.getD i default) ctx with
    | error f =>
      rw [hp] at h
      exact absurd h (by simp)
    | ok out =>
      obtain ⟨ds1, ctx1, evs⟩ := out
      rw [hp] at h
      simp only [] at h ⊢
      cases hr : run_from cl (i + 1) k ds1 ctx1 with
      | mk f rest =>
        obtain ⟨ds2, evs2⟩ := rest
        rw [hr] at h
        simp only [] at h ⊢
        subst h
        have hih := ih (i + 1) ds1 ctx1
        rw [hr] at hih
        simp only [] at hih
        have hih2 := hih (by trivial)
        have hev := (process_cmd_ok_inv ds _ ctx ds1 ctx1 evs hp).1
        constructor
        · simp [List.filter_cons, List.filter_append, isDispatchEv, hev.1, hih2.1,
            List.range'_succ]
        · simp [List.count_cons, List.count_append, hev.2, hih2.2]

/-- When no record in the processed range is a SET_CLIP, the loop leaves
the device state exactly as it found it. -/
theorem run_from_no_set_clip (cl : nema_cmdlist) :
    ∀ n i ds ctx,
      (∀ k, i ≤ k → k < i + n → (cl.list.getD k default).op ≠ NEMA_OP_SET_CLIP) →
      (run_from cl i n ds ctx).2.1 = ds := by
  intro n
  induction n with
  | zero => intro i ds ctx _; simp [run_from]
  | succ k ih =>
    intro i ds ctx hno
    rw [run_from]
    cases hp : process_cmd ds (cl.list.getD i default) ctx with
    | error f => rfl
    | ok out =>
      obtain ⟨ds1, ctx1, evs⟩ := out
      simp only []
      cases hr : run_from cl (i + 1) k ds1 ctx1 with
      | mk f rest =>
        obtain ⟨ds2, evs2⟩ := rest
        simp only []
        have hds1 : ds1 = ds :=
          (process_cmd_ok_inv ds _ ctx ds1 ctx1 evs hp).2
            (hno i (Nat.le_refl i) (by omega))
        have hih := ih (i + 1) ds1 ctx1 (fun j hj1 hj2 => hno j (by omega) (by omega))
        rw [hr] at hih
        simp only [] at hih
        rw [hih, hds1]

/-- A SET_CONST_COLOR record: a handler with no side effect outside the
context. -/
def constColorCmd : nema_cmd :=
  { op := NEMA_OP_SET_CONST_COLOR, addr_a := 0, addr_b := 0, u_int_8_a := 0, u_int_a := 7
    u_int_b := 0, u_int_c := 0, int_a := 0, int_b := 0, int_c := 0, int_d := 0 }

/-- A two-record command list without any SET_CLIP. -/
def witCl : nema_cmdlist := { list := [constColorCmd, constColorCmd], next_cmd_slot := 2 }

/-- The record the loop fetches at out-of-bounds index 250.  In the
`nema_cmdlist_t` layout the `next_cmd_slot` byte sits directly after
`list[250]`, at byte offset 250 * sizeof(nema_cmd_t), so the opcode byte of
this phantom record is the count byte itself and necessarily holds the
oversized count; the remaining fields read the adjacent padding, modelled
as zero. -/
def oobCmd : nema_cmd :=
  { op := 251, addr_a := 0, addr_b := 0, u_int_8_a := 0, u_int_a := 0, u_int_b := 0
    u_int_c := 0, int_a := 0, int_b := 0, int_c := 0, int_d := 0 }

/-- A command-list memory block whose count byte, 251, exceeds the 250-slot
array: 250 benign in-bounds records followed by the aliased record the
loop reads at index 250, whose opcode byte is that very count byte. -/
def oversizedCl : nema_cmdlist :=
  { list := List.replicate 250 constColorCmd ++ [oobCmd], next_cmd_slot := 251 }

/-- C1: after a write of value 2 to register offset 0x00, a submission
whose records all process without fault dispatches them in index order
0..N-1 — none skipped, none reordered — and raises the completion
interrupt exactly once, as the last event, also for N = 0. -/
theorem nema_C1_dispatch_in_order_irq_once (ds : NEMAState) (cl : nema_cmdlist) (sz : Nat)
    (hn : cl.next_cmd_slot ≤ NEMA_MAX_CMD_COUNT)
    (hok : (on_nema_io_write ds NEMA_REG_OP NEMA_REG_OP_SUBMIT_COMMAND_LIST cl sz).1 = none) :
    (on_nema_io_write ds NEMA_REG_OP NEMA_REG_OP_SUBMIT_COMMAND_LIST cl sz).2.2.filter
        isDispatchEv = (List.range cl.next_cmd_slot).map Event.dispatch ∧
    (on_nema_io_write ds NEMA_REG_OP NEMA_REG_OP_SUBMIT_COMMAND_LIST cl sz).2.2.count
        Event.raiseIRQ = 1 ∧
    (on_nema_io_write ds NEMA_REG_OP NEMA_REG_OP_SUBMIT_COMMAND_LIST cl sz).2.2.getLast? =
        some Event.raiseIRQ ∧
    (on_nema_io_write ds NEMA_REG_OP NEMA_REG_OP_SUBMIT_COMMAND_LIST cl sz).2.1.irq = true := by
  have hw : on_nema_io_write ds NEMA_REG_OP NEMA_REG_OP_SUBMIT_COMMAND_LIST cl sz
      = process_cl ds cl := by
    simp [on_nema_io_write]
  rw [hw] at hok ⊢
  unfold process_cl at hok ⊢
  cases hr : run_from cl 0 cl.next_cmd_slot ds initCtx with
  | mk f rest =>
    obtain ⟨ds1, evs1⟩ := rest
    rw [hr] at hok
    cases f with
    | some f0 => exact Option.noConfusion hok
    | none =>
      simp only []
      have hspec := run_from_none_spec cl cl.next_cmd_slot 0 ds initCtx
      rw [hr] at hspec
      simp only [] at hspec
      have hspec2 := hspec (by trivial)
      refine ⟨?_, ?_, ?_, by trivial⟩
      · rw [List.filter_append]
        simp [hspec2.1, isDispatchEv, List.range_eq_range']
      · rw [List.count_append]
        simp [hspec2.2]
      · exact List.getLast?_concat _

/-- C1 witness: a concrete two-record submission dispatches indices 0 and 1
and raises the interrupt once, at the end. -/
theorem nema_C1_witness :
    (on_nema_io_write ds0 NEMA_REG_OP NEMA_REG_OP_SUBMIT_COMMAND_LIST witCl 4).2.2.filter
        isDispatchEv = (List.range witCl.next_cmd_slot).map Event.dispatch ∧
    (on_nema_io_write ds0 NEMA_REG_OP NEMA_REG_OP_SUBMIT_COMMAND_LIST witCl 4).2.2.count
        Event.raiseIRQ = 1 ∧
    (on_nema_io_write ds0 NEMA_REG_OP NEMA_REG_OP_SUBMIT_COMMAND_LIST witCl 4).2.2.getLast? =
        some Event.raiseIRQ ∧
    (on_nema_io_write ds0 NEMA_REG_OP NEMA_REG_OP_SUBMIT_COMMAND_LIST witCl 4).2.1.irq = true :=
  nema_C1_dispatch_in_order_irq_once ds0 witCl 4 (by decide) (by decide)

/-- C4: the clip rectangle and its has-been-set flag live in the device
state and survive any submission that contains no SET_CLIP record, while
the Pipeline Context of every submission starts from the all-zero
`initCtx` — `process_cl` hands `initCtx` to the dispatch loop by
construction, and every `initCtx` field is zero/empty, so nothing a prior
list stored in its context can reach the next list. -/
theorem nema_C4_clip_persists_ctx_fresh (ds : NEMAState) (cl : nema_cmdlist)
    (hnoclip : ∀ i, i < cl.next_cmd_slot →
      (cl.list.getD i default).op ≠ NEMA_OP_SET_CLIP) :
    ((process_cl ds cl).2.1.has_clip_set = ds.has_clip_set ∧
      (process_cl ds cl).2.1.nema_clip_region = ds.nema_clip_region ∧
      (process_cl ds cl).2.1.pixman_clip_region = ds.pixman_clip_region) ∧
    (∀ dsx clx, process_cl dsx clx =
      (match run_from clx 0 clx.next_cmd_slot dsx initCtx with
       | (some f, ds1, evs) => (some f, ds1, evs)
       | (none, ds1, evs) => (none, { ds1 with irq := true }, evs ++ [Event.raiseIRQ]))) ∧
    initCtx.dest_tex = none ∧ initCtx.src_tex = none ∧ initCtx.mask_tex = none ∧
    initCtx.dest_surface = none ∧ initCtx.src_surface = none ∧
    initCtx.blending_mode = 0 ∧ initCtx.const_color = 0 ∧
    initCtx.const_color_set = false := by
  refine ⟨?_, fun dsx clx => rfl, rfl, rfl, rfl, rfl, rfl, rfl, rfl, rfl⟩
  have hds := run_from_no_set_clip cl cl.next_cmd_slot 0 ds initCtx
    (fun k hk1 hk2 => hnoclip k (by omega))
  unfold process_cl
  cases hr : run_from cl 0 cl.next_cmd_slot ds initCtx with
  | mk f rest =>
    obtain ⟨ds1, evs1⟩ := rest
    rw [hr] at hds
    simp only [] at hds
    subst hds
    cases f with
    | some f0 => exact ⟨rfl, rfl, rfl⟩
    | none => exact ⟨rfl, rfl, rfl⟩

/-- C4 witness: a concrete clip-free submission on the clip-never-set
state leaves all three clip fields unchanged. -/
theorem nema_C4_witness :
    ((process_cl ds0 witCl).2.1.has_clip_set = ds0.has_clip_set ∧
      (process_cl ds0 witCl).2.1.nema_clip_region = ds0.nema_clip_region ∧
      (process_cl ds0 witCl).2.1.pixman_clip_region = ds0.pixman_clip_region) ∧
    (∀ dsx clx, process_cl dsx clx =
      (match run_from clx 0 clx.next_cmd_slot dsx initCtx with
       | (some f, ds1, evs) => (some f, ds1, evs)
       | (none, ds1, evs) => (none, { ds1 with irq := true }, evs ++ [Event.raiseIRQ]))) ∧
    initCtx.dest_tex = none ∧ initCtx.src_tex = none ∧ initCtx.mask_tex = none ∧
    initCtx.dest_surface = none ∧ initCtx.src_surface = none ∧
    initCtx.blending_mode = 0 ∧ initCtx.const_color = 0 ∧
    initCtx.const_color_set = false :=
  nema_C4_clip_persists_ctx_fresh ds0 witCl (by
    intro i hi
    have h2 : i < 2 := hi
    interval_cases i <;> decide)

/-- Every opcode above 11, the highest defined value, decodes to the
default case. -/
theorem decode_op_large {op : Nat} (h : 11 < op) : decode_op op = nema_op.unsupported := by
  unfold decode_op
  rw [if_neg (by simp only [NEMA_OP_BIND_TEX]; omega),
    if_neg (by simp only [NEMA_OP_SET_CLIP]; omega),
    if_neg (by simp only [NEMA_OP_SET_BLEND_BLIT]; omega),
    if_neg (by simp only [NEMA_OP_SET_BLEND_FILL]; omega),
    if_neg (by simp only [NEMA_OP_SET_CONST_COLOR]; omega),
    if_neg (by simp only [NEMA_OP_DRAW_LINE]; omega),
    if_neg (by simp only [NEMA_OP_BLIT]; omega),
    if_neg (by simp only [NEMA_OP_FILL_RECT]; omega),
    if_neg (by simp only [NEMA_OP_DRAW_RECT]; omega),
    if_neg (by simp only [NEMA_OP_FILL_RECT_ROUNDED]; omega),
    if_neg (by simp only [NEMA_OP_DRAW_RECT_ROUNDED]; omega)]

/-- A record whose opcode exceeds 11 faults in the default case of the
dispatch, whatever the device state and context. -/
theorem process_cmd_unsupported (ds : NEMAState) (cmd : nema_cmd) (ctx : pipeline_ctx)
    (h : 11 < cmd.op) :
    process_cmd ds cmd ctx = Except.error NemaFault.unsupportedCmd := by
  unfold process_cmd
  rw [decode_op_large h]
  rfl

/-- A successfully processed record never changes the interrupt line. -/
theorem process_cmd_ok_irq (ds : NEMAState) (cmd : nema_cmd) (ctx : pipeline_ctx)
    (ds' : NEMAState) (ctx' : pipeline_ctx) (evs : List Event)
    (h : process_cmd ds cmd ctx = Except.ok (ds', ctx', evs)) :
    ds'.irq = ds.irq := by
  unfold process_cmd at h
  cases hd : decode_op cmd.op <;> rw [hd] at h <;> simp only [run_op] at h
  case bind_tex =>
    cases hs : decode_tex cmd.u_int_8_a <;> rw [hs] at h <;> simp only [run_bind_tex] at h
    case invalid => exact Except.noConfusion h
    all_goals
      injection h with h'
      injection h' with ha hb
      rw [← ha]
  case set_clip =>
    injection h with h'
    injection h' with ha hb
    rw [← ha]
  case set_blend_blit =>
    injection h with h'
    injection h' with ha hb
    rw [← ha]
  case set_blend_fill =>
    injection h with h'
    injection h' with ha hb
    rw [← ha]
  case set_const_color =>
    injection h with h'
    injection h' with ha hb
    rw [← ha]
  case draw_line =>
    revert h
    cases hel : execute_draw_line ds cmd ctx with
    | error f => intro h; exact Except.noConfusion h
    | ok ev =>
      intro h
      injection h with h'
      injection h' with ha hb
      rw [← ha]
  case blit =>
    revert h
    cases hel : execute_blit ds ctx with
    | error f => intro h; exact Except.noConfusion h
    | ok ctx2 =>
      intro h
      injection h with h'
      injection h' with ha hb
      rw [← ha]
  case fill_rect =>
    revert h
    cases hel : execute_fill_rect ds cmd ctx with
    | error f => intro h; exact Except.noConfusion h
    | ok ctx2 =>
      intro h
      injection h with h'
      injection h' with ha hb
      rw [← ha]
  case draw_rect =>
    injection h with h'
    injection h' with ha hb
    rw [← ha]
  case fill_rect_rounded =>
    injection h with h'
    injection h' with ha hb
    rw [← ha]
  case draw_rect_rounded =>
    injection h with h'
    injection h' with ha hb
    rw [← ha]
  case unsupported => exact Except.noConfusion h

/-- The loop never changes the interrupt line: the only raise happens in
`process_cl` after a fault-free run. -/
theorem run_from_irq (cl : nema_cmdlist) :
    ∀ n i ds ctx, (run_from cl i n ds ctx).2.1.irq = ds.irq := by
  intro n
  induction n with
  | zero => intro i ds ctx; simp [run_from]
  | succ k ih =>
    intro i ds ctx
    rw [run_from]
    cases hp : process_cmd ds (cl.list.getD i default) ctx with
    | error f => rfl
    | ok out =>
      obtain ⟨ds1, ctx1, evs⟩ := out
      simp only []
      cases hr : run_from cl (i + 1) k ds1 ctx1 with
      | mk f rest =>
        obtain ⟨ds2, evs2⟩ := rest
        simp only []
        have h1 : ds1.irq = ds.irq := process_cmd_ok_irq ds _ ctx ds1 ctx1 evs hp
        have hih := ih (i + 1) ds1 ctx1
        rw [hr] at hih
        simp only [] at hih
        rw [hih, h1]

/-- If the record at some index in the processed range faults
unconditionally, the loop cannot finish without a fault. -/
theorem run_from_fault_of_bad (cl : nema_cmdlist) (m : Nat)
    (hbad : ∀ ds ctx, process_cmd ds (cl.list.getD m default) ctx =
      Except.error NemaFault.unsupportedCmd) :
    ∀ n i ds ctx, i ≤ m → m < i + n → (run_from cl i n ds ctx).1 ≠ none := by
  intro n
  induction n with
  | zero => intro i ds ctx h1 h2; omega
  | succ k ih =>
    intro i ds ctx h1 h2
    rw [run_from]
    cases hp : process_cmd ds (cl.list.getD i default) ctx with
    | error f => simp
    | ok out =>
      obtain ⟨ds1, ctx1, evs⟩ := out
      simp only []
      rcases eq_or_ne i m with he | hne
      · rw [he, hbad ds ctx] at hp
        exact Except.noConfusion hp
      · cases hr : run_from cl (i + 1) k ds1 ctx1 with
        | mk f rest =>
          obtain ⟨ds2, evs2⟩ := rest
          simp only []
          have hih := ih (i + 1) ds1 ctx1 (by omega) (by omega)
          rw [hr] at hih
          simp only [] at hih
          exact hih

/-- With an unconditionally faulting record at index `m`, the loop never
dispatches an index beyond `m`: it stops there at the latest. -/
theorem run_from_dispatch_le (cl : nema_cmdlist) (m : Nat)
    (hbad : ∀ ds ctx, process_cmd ds (cl.list.getD m default) ctx =
      Except.error NemaFault.unsupportedCmd) :
    ∀ n i ds ctx j, i ≤ m → Event.dispatch j ∈ (run_from cl i n ds ctx).2.2 → j ≤ m := by
  intro n
  induction n with
  | zero => intro i ds ctx j _ hj; simp [run_from] at hj
  | succ k ih =>
    intro i ds ctx j him hj
    rw [run_from] at hj
    cases hp : process_cmd ds (cl.list.getD i default) ctx with
    | error f =>
      rw [hp] at hj
      simp only [] at hj
      have hji : Event.dispatch j = Event.dispatch i := List.mem_singleton.mp hj
      injection hji with hji2
      omega
    | ok out =>
      obtain ⟨ds1, ctx1, evs⟩ := out
      rw [hp] at hj
      simp only [] at hj
      rcases eq_or_ne i m with he | hne
      · rw [he, hbad ds ctx] at hp
        exact Except.noConfusion hp
      · cases hr : run_from cl (i + 1) k ds1 ctx1 with
        | mk f rest =>
          obtain ⟨ds2, evs2⟩ := rest
          rw [hr] at hj
          simp only [] at hj
          rcases List.mem_cons.mp hj with h0 | h1
          · injection h0 with h0j
            omega
          · rcases List.mem_append.mp h1 with h2 | h3
            · have hev := (process_cmd_ok_inv ds _ ctx ds1 ctx1 evs hp).1.1
              have hdj : isDispatchEv (Event.dispatch j) = true := by simp [isDispatchEv]
              have hmem := List.mem_filter.mpr ⟨h2, hdj⟩
              rw [hev] at hmem
              exact absurd hmem (List.not_mem_nil _)
            · exact ih (i + 1) ds1 ctx1 j (by omega) (by rw [hr]; exact h3)

set_option maxRecDepth 4000 in
/-- C5 counterexample: with the count byte 251, processing does read a
record at an index beyond the 250-entry array — index 250 is dispatched —
before the fatal abort lands in the unsupported-opcode default case, and
the completion interrupt is never raised. -/
theorem nema_C5_counterexample :
    Event.dispatch 250 ∈ (process_cl ds0 oversizedCl).2.2 ∧
    (process_cl ds0 oversizedCl).1 = some NemaFault.unsupportedCmd ∧
    (process_cl ds0 oversizedCl).2.1.irq = false := by
  refine ⟨?_, ?_, ?_⟩ <;> decide

/-- C5 (amended): a submitted list whose count byte exceeds 250 is fatally
aborted and the completion interrupt is never raised — but not by any size
check: the loop reads the out-of-bounds record at index 250, whose opcode
byte is, by the struct layout, the oversized count byte itself, so it
decodes as an unsupported command (251..255 are above every defined
opcode) and the process dies after that out-of-bounds read; no index
beyond 250 is ever dispatched. -/
theorem nema_C5_oversized_fatal_after_oob_read (ds : NEMAState) (cl : nema_cmdlist)
    (hcount : 250 < cl.next_cmd_slot)
    (halias : (cl.list.getD 250 default).op = cl.next_cmd_slot) :
    (process_cl ds cl).1 ≠ none ∧
    (process_cl ds cl).2.1.irq = ds.irq ∧
    (∀ j, Event.dispatch j ∈ (process_cl ds cl).2.2 → j ≤ 250) := by
  have hbad : ∀ dsx ctx, process_cmd dsx (cl.list.getD 250 default) ctx =
      Except.error NemaFault.unsupportedCmd := fun dsx ctx =>
    process_cmd_unsupported dsx _ ctx (by rw [halias]; omega)
  have hfault := run_from_fault_of_bad cl 250 hbad cl.next_cmd_slot 0 ds initCtx
    (by omega) (by omega)
  have hirq := run_from_irq cl cl.next_cmd_slot 0 ds initCtx
  unfold process_cl
  cases hr : run_from cl 0 cl.next_cmd_slot ds initCtx with
  | mk f rest =>
    obtain ⟨ds1, evs1⟩ := rest
    rw [hr] at hfault hirq
    simp only [] at hfault hirq
    cases f with
    | none => exact absurd rfl hfault
    | some f0 =>
      simp only []
      refine ⟨by simp, hirq, ?_⟩
      intro j hj
      exact run_from_dispatch_le cl 250 hbad cl.next_cmd_slot 0 ds initCtx j (by omega)
        (by rw [hr]; exact hj)

set_option maxRecDepth 4000 in
/-- C5 witness: the amended theorem applied to the concrete count-251
block: the run faults and the interrupt line stays low. -/
theorem nema_C5_oversized_witness :
    (process_cl ds0 oversizedCl).1 ≠ none ∧
    (process_cl ds0 oversizedCl).2.1.irq = ds0.irq :=
  ⟨(nema_C5_oversized_fatal_after_oob_read ds0 oversizedCl (by decide) (by decide)).1,
    (nema_C5_oversized_fatal_after_oob_read ds0 oversizedCl (by decide) (by decide)).2.1⟩

/-- Indexing into a flattening of uniform-length rows picks the row entry. -/
theorem flatten_getD_rows (L : Nat) :
    ∀ (rows : List (List Nat)) (i j : Nat), (∀ r ∈ rows, r.length = L) →
      i < rows.length → j < L →
      rows.flatten.getD (i * L + j) 0 = (rows.getD i []).getD j 0 := by
  intro rows
  induction rows with
  | nil => intro i j _ hi _; exact absurd hi (by simp)
  | cons r rest ih =>
    intro i j hlen hi hj
    have hr : r.length = L := hlen r (by simp)
    cases i with
    | zero =>
      rw [List.flatten_cons, Nat.zero_mul, Nat.zero_add, List.getD_append]
      · rfl
      · omega
    | succ i' =>
      have harith : (i' + 1) * L + j = r.length + (i' * L + j) := by
        rw [hr]; ring
      rw [List.flatten_cons, harith, List.getD_append_right _ _ _ _ (by omega)]
      have : r.length + (i' * L + j) - r.length = i' * L + j := by omega
      rw [this]
      have hi' : i' < rest.length := by simpa using hi
      have := ih i' j (fun r' hr' => hlen r' (by simp [hr'])) hi' hj
      rw [this]
      rfl

/-- Reading a replicated list never leaves the replicated value (or the
default, which is the same 0 here). -/
theorem getD_replicate_val (n v m : Nat) (h : m < n) :
    (List.replicate n v).getD m 0 = v := by
  rw [List.getD_eq_getElem?_getD, List.getElem?_replicate, if_pos h]
  rfl

/-- Row-level contract of `round_mask_if_needed` for a stride that is not a
multiple of 4: each output row keeps the source row's `stride` bytes and
ends in `4 - stride % 4` zero bytes. -/
theorem round_mask_if_needed_spec (data : List Nat) (stride height : Nat)
    (hlen : data.length = stride * height) (hmod : stride % 4 ≠ 0)
    (padded : List Nat) (hp : round_mask_if_needed data stride height = some padded) :
    ∀ i, i < height → ∀ j,
      (j < stride →
        padded.getD (i * (stride + (4 - stride % 4)) + j) 0 = data.getD (i * stride + j) 0) ∧
      (stride ≤ j → j < stride + (4 - stride % 4) →
        padded.getD (i * (stride + (4 - stride % 4)) + j) 0 = 0) := by
  intro i hi j
  have h4 : stride % 4 < 4 := Nat.mod_lt _ (by omega)
  have hpad : (4 - stride % 4) % 4 = 4 - stride % 4 := by omega
  unfold round_mask_if_needed at hp
  rw [if_neg hmod] at hp
  injection hp with hp
  subst hp
  set L := stride + (4 - stride % 4) with hL
  have hrows : ∀ r ∈ (List.range height).map (fun i =>
      ((data.drop (i * stride)).take stride) ++ List.replicate ((4 - stride % 4) % 4) 0),
      r.length = L := by
    intro r hr
    obtain ⟨k, hk, rfl⟩ := List.mem_map.mp hr
    have hkh : k < height := List.mem_range.mp hk
    have hdl : (data.drop (k * stride)).length = stride * height - k * stride := by
      simp [hlen]
    have htk : ((data.drop (k * stride)).take stride).length = stride := by
      rw [List.length_take, hdl]
      have : stride ≤ stride * height - k * stride := by
        have h1 : (k + 1) * stride ≤ height * stride :=
          Nat.mul_le_mul_right stride hkh
        have h2 : k * stride + stride = (k + 1) * stride := by ring
        have h3 : stride * height = height * stride := Nat.mul_comm stride height
        omega
      omega
    simp [htk, hpad, hL]
  have hrowi : (((List.range height).map (fun i =>
      ((data.drop (i * stride)).take stride) ++ List.replicate ((4 - stride % 4) % 4) 0)).getD
        i []) =
      ((data.drop (i * stride)).take stride) ++ List.replicate ((4 - stride % 4) % 4) 0 := by
    rw [List.getD_eq_getElem?_getD, List.getElem?_map, List.getElem?_range hi]
    rfl
  have hilen : i < ((List.range height).map (fun i =>
      ((data.drop (i * stride)).take stride) ++ List.replicate ((4 - stride % 4) % 4) 0)).length := by
    simpa using hi
  have htk : ((data.drop (i * stride)).take stride).length = stride := by
    have hdl : (data.drop (i * stride)).length = stride * height - i * stride := by
      simp [hlen]
    rw [List.length_take, hdl]
    have h1 : (i + 1) * stride ≤ height * stride := Nat.mul_le_mul_right stride hi
    have h2 : i * stride + stride = (i + 1) * stride := by ring
    have h3 : stride * height = height * stride := Nat.mul_comm stride height
    omega
  constructor
  · intro hj
    rw [flatten_getD_rows L _ i j hrows hilen (by omega), hrowi, List.getD_append _ _ _ _ (by omega)]
    rw [List.getD_eq_getElem?_getD, List.getElem?_take, if_pos hj, List.getElem?_drop,
      ← List.getD_eq_getElem?_getD]
  · intro hj1 hj2
    rw [flatten_getD_rows L _ i j hrows hilen (by omega), hrowi,
      List.getD_append_right _ _ _ _ (by omega)]
    rw [htk, hpad]
    by_cases hcase : j - stride < 4 - stride % 4
    · exact getD_replicate_val _ _ _ hcase
    · rw [List.getD_eq_getElem?_getD, List.getElem?_replicate, if_neg hcase]
      rfl

/-- C6: acquiring a mask texture whose declared stride is not a multiple
of 4 pads the row pitch up to the next multiple of 4, keeps each source
row's bytes at the start of its padded row and zero-fills the padding;
a stride already divisible by 4 leaves buffer and stride unchanged. -/
theorem nema_C6_mask_stride_normalization (ds : NEMAState) (cmd : nema_cmd) :
    (cmd.int_a.toNat % 4 ≠ 0 →
      (read_tex_a8 ds cmd).stride % 4 = 0 ∧
      (read_tex_a8 ds cmd).stride = 4 * (cmd.int_a.toNat / 4 + 1) ∧
      ∀ i, i < cmd.u_int_b → ∀ j,
        (j < cmd.int_a.toNat →
          (read_tex_a8 ds cmd).data.getD (i * (read_tex_a8 ds cmd).stride + j) 0 =
            (readBytes ds cmd.addr_a (cmd.int_a.toNat * cmd.u_int_b)).getD
              (i * cmd.int_a.toNat + j) 0) ∧
        (cmd.int_a.toNat ≤ j → j < (read_tex_a8 ds cmd).stride →
          (read_tex_a8 ds cmd).data.getD (i * (read_tex_a8 ds cmd).stride + j) 0 = 0)) ∧
    (cmd.int_a.toNat % 4 = 0 →
      (read_tex_a8 ds cmd).data = readBytes ds cmd.addr_a (cmd.int_a.toNat * cmd.u_int_b) ∧
      (read_tex_a8 ds cmd).stride = cmd.int_a.toNat) := by
  have hlen : (readBytes ds cmd.addr_a (cmd.int_a.toNat * cmd.u_int_b)).length
      = cmd.int_a.toNat * cmd.u_int_b := by simp [readBytes]
  constructor
  · intro hmod
    have h4 : cmd.int_a.toNat % 4 < 4 := Nat.mod_lt _ (by omega)
    simp only [read_tex_a8]
    cases hm : round_mask_if_needed (readBytes ds cmd.addr_a (cmd.int_a.toNat * cmd.u_int_b))
        cmd.int_a.toNat cmd.u_int_b with
    | none =>
      unfold round_mask_if_needed at hm
      rw [if_neg hmod] at hm
      exact Option.noConfusion hm
    | some padded =>
      simp only []
      refine ⟨by omega, by omega, ?_⟩
      intro i hi j
      exact round_mask_if_needed_spec _ _ _ hlen hmod padded hm i hi j
  · intro hmod
    simp only [read_tex_a8]
    have hm : round_mask_if_needed (readBytes ds cmd.addr_a (cmd.int_a.toNat * cmd.u_int_b))
        cmd.int_a.toNat cmd.u_int_b = none := by
      unfold round_mask_if_needed
      rw [if_pos hmod]
    rw [hm]
    exact ⟨rfl, rfl⟩

/-- A device state whose memory holds the byte pattern `addr % 256`. -/
def dsId : NEMAState :=
  { mem := fun a => a, irq := false, has_clip_set := false
    pixman_clip_region := { x := 0, y := 0, w := 0, h := 0 }
    nema_clip_region := { x := 0, y := 0, w := 0, h := 0 } }

/-- A mask-texture bind: 3 bytes wide, stride 3, two rows. -/
def maskCmd : nema_cmd :=
  { op := NEMA_OP_BIND_TEX, addr_a := 0, addr_b := 0, u_int_8_a := NEMA_TEX3, u_int_a := 3
    u_int_b := 2, u_int_c := 0, int_a := 3, int_b := 0, int_c := 0, int_d := 0 }

/-- C6 witness: the concrete stride-3 two-row mask acquires with stride 4,
row 1 keeps its source bytes and its padding byte reads 0. -/
theorem nema_C6_witness :
    (read_tex_a8 dsId maskCmd).stride = 4 ∧
    (read_tex_a8 dsId maskCmd).data.getD (1 * (read_tex_a8 dsId maskCmd).stride + 2) 0 =
      (readBytes dsId maskCmd.addr_a (maskCmd.int_a.toNat * maskCmd.u_int_b)).getD
        (1 * maskCmd.int_a.toNat + 2) 0 ∧
    (read_tex_a8 dsId maskCmd).data.getD (1 * (read_tex_a8 dsId maskCmd).stride + 3) 0 = 0 := by
  have h := (nema_C6_mask_stride_normalization dsId maskCmd).1 (by decide)
  exact ⟨h.2.1, (h.2.2 1 (by decide) 2).1 (by decide),
    (h.2.2 1 (by decide) 3).2 (by decide) (by decide)⟩

/-- The synthesized-mask stride expression of `blend_opacity_if_needed` is
the width rounded up to a multiple of 4. -/
theorem stride_roundup_eq (w : Nat) :
    (if w % 4 = 0 then w else ((w >>> 2) + 1) <<< 2) = 4 * ((w + 3) / 4) := by
  have h1 : w >>> 2 = w / 4 := by
    simp [Nat.shiftRight_eq_div_pow]
  have h2 : ((w >>> 2) + 1) <<< 2 = (w / 4 + 1) * 4 := by
    rw [h1, Nat.shiftLeft_eq]
  rcases eq_or_ne (w % 4) 0 with h | h
  · rw [if_pos h]
    omega
  · rw [if_neg h, h2]
    omega

/-- C7: with the has-opacity flag clear the mask is untouched; with it set
and no mask bound, a destination-sized uniform a8 mask is synthesized whose
stride is the width rounded up to a multiple of 4 and whose every byte is
the constant color's top byte; with a mask bound, every buffer byte is
rescaled to `(byte * opacity) >> 8`. -/
theorem nema_C7_opacity_mask_synthesis (ctx : pipeline_ctx) :
    (ctx.blending_mode &&& NEMA_BL_OPA = 0 → blend_opacity_if_needed ctx = Except.ok ctx) ∧
    (ctx.blending_mode &&& NEMA_BL_OPA ≠ 0 → ctx.mask_tex = none →
      ∀ dest, ctx.dest_tex = some dest →
        blend_opacity_if_needed ctx =
          Except.ok
            { ctx with
              mask_tex :=
                some ⟨dest.width, dest.height, 4 * ((dest.width + 3) / 4),
                  List.replicate (dest.height * (4 * ((dest.width + 3) / 4)))
                    ((ctx.const_color >>> 24) &&& 255)⟩ }) ∧
    (ctx.blending_mode &&& NEMA_BL_OPA ≠ 0 → ∀ mask, ctx.mask_tex = some mask →
      blend_opacity_if_needed ctx =
        Except.ok
          { ctx with
            mask_tex :=
              some ⟨mask.width, mask.height, mask.stride,
                mask.data.map
                  (fun b => (b * ((ctx.const_color >>> 24) &&& 255)) >>> 8)⟩ }) := by
  refine ⟨?_, ?_, ?_⟩
  · intro h
    unfold blend_opacity_if_needed
    rw [if_pos h]
  · intro hopa hmask dest hdest
    simp only [blend_opacity_if_needed]
    rw [if_neg hopa, hmask, hdest]
    simp only []
    rw [stride_roundup_eq]
  · intro hopa mask hmask
    simp only [blend_opacity_if_needed]
    rw [if_neg hopa, hmask]

/-- A context with the opacity flag set (blend mode 0x5), opacity byte 128
and a bound destination but no mask. -/
def ctxOpa : pipeline_ctx :=
  { dest_tex := some destImg, src_tex := none, mask_tex := none, dest_surface := some ()
    src_surface := none, const_color := 0x80000000, const_color_set := true, blending_mode := 5
    blending_option := blend_option.fill }

/-- A 1×1 a8 mask image with stride 4 and bytes 10, 20, 30, 40. -/
def maskImg : pixman_image := { width := 1, height := 1, stride := 4, data := [10, 20, 30, 40] }

/-- The opacity context with `maskImg` bound as the mask. -/
def ctxOpaMask : pipeline_ctx := { ctxOpa with mask_tex := some maskImg }

/-- C7 witness: opacity off leaves `ctxC` untouched; opacity 128 with no
mask synthesizes the uniform 4-byte mask; opacity 128 over the bound mask
halves every byte. -/
theorem nema_C7_witness :
    blend_opacity_if_needed ctxC = Except.ok ctxC ∧
    blend_opacity_if_needed ctxOpa =
      Except.ok { ctxOpa with mask_tex := some ⟨1, 1, 4, List.replicate 4 128⟩ } ∧
    blend_opacity_if_needed ctxOpaMask =
      Except.ok { ctxOpaMask with mask_tex := some ⟨1, 1, 4, [5, 10, 15, 20]⟩ } :=
  ⟨(nema_C7_opacity_mask_synthesis ctxC).1 (by decide),
    (nema_C7_opacity_mask_synthesis ctxOpa).2.1 (by decide) rfl destImg rfl,
    (nema_C7_opacity_mask_synthesis ctxOpaMask).2.2 (by decide) maskImg rfl⟩

/-- The fixed-point channel multiply by a full 255 alpha is the identity
on byte values. -/
theorem mul8_255 (a : Nat) (h : a ≤ 255) : mul8 a 255 = a := by
  unfold mul8
  simp only [Nat.shiftRight_eq_div_pow]
  norm_num
  omega

/-- The channels produced by `unpackPix` are bytes. -/
theorem unpackPix_le (p : Nat) :
    (unpackPix p).a ≤ 255 ∧ (unpackPix p).r ≤ 255 ∧ (unpackPix p).g ≤ 255 ∧
      (unpackPix p).b ≤ 255 := by
  unfold unpackPix
  exact ⟨Nat.and_le_right, Nat.and_le_right, Nat.and_le_right, Nat.and_le_right⟩

/-- A full-alpha mask sample leaves the over operator unchanged. -/
theorem overPix_mask255 (s d : argb)
    (hs : s.a ≤ 255 ∧ s.r ≤ 255 ∧ s.g ≤ 255 ∧ s.b ≤ 255) :
    overPix s (some 255) d = overPix s none d := by
  simp only [overPix, srcFactor]
  rw [mul8_255 _ hs.1, mul8_255 _ hs.2.1, mul8_255 _ hs.2.2.1, mul8_255 _ hs.2.2.2]

/-- Sampling the destination-sized uniform mask inside the destination
bounds yields its fill value. -/
theorem maskVal_replicate (w h L v x y : Nat) (hx : x < L) (hy : y < h) :
    maskVal ⟨w, h, L, List.replicate (h * L) v⟩ x y = v := by
  unfold maskVal
  simp only
  apply getD_replicate_val
  calc y * L + x < y * L + L := by omega
    _ = (y + 1) * L := by ring
    _ ≤ h * L := Nat.mul_le_mul_right L hy

/-- Compositing under the destination-sized uniform 255 mask is the same
as compositing with no mask. -/
theorem compositeOver_uniform255 (clip : nema_region) (srcAt : Nat → Nat → argb)
    (dest : pixman_image) (L : Nat) (rx ry : Int) (rw' rh' : Nat)
    (hL : dest.width ≤ L)
    (hsrc : ∀ x y, (srcAt x y).a ≤ 255 ∧ (srcAt x y).r ≤ 255 ∧ (srcAt x y).g ≤ 255 ∧
      (srcAt x y).b ≤ 255) :
    compositeOver clip srcAt
        (some ⟨dest.width, dest.height, L, List.replicate (dest.height * L) 255⟩)
        dest rx ry rw' rh' =
      compositeOver clip srcAt none dest rx ry rw' rh' := by
  unfold compositeOver
  refine congrArg (fun dd => { dest with data := dd }) ?_
  apply List.map_congr_left
  intro idx hidx
  have hidx' : idx < dest.width * dest.height := List.mem_range.mp hidx
  have hw : 0 < dest.width := by
    rcases Nat.eq_zero_or_pos dest.width with h0 | h0
    · rw [h0] at hidx'
      simp at hidx'
    · exact h0
  have hx : idx % dest.width < dest.width := Nat.mod_lt _ hw
  have hy : idx / dest.width < dest.height := by
    rw [Nat.div_lt_iff_lt_mul hw]
    calc idx < dest.width * dest.height := hidx'
      _ = dest.height * dest.width := Nat.mul_comm _ _
  simp only []
  refine if_congr Iff.rfl ?_ rfl
  rw [Option.map_some', maskVal_replicate _ _ _ _ _ _ (by omega) hy,
    overPix_mask255 _ _ (hsrc _ _)]
  rfl

/-- C8: a fill or blit run with the has-opacity flag set, constant-color
alpha byte 255 and no mask bound produces exactly the destination pixels of
the same fill or blit run without the opacity flag and with no constant
color set: fully-opaque opacity is a no-op on the compositing output.  The
fill half holds for every such context; the blit half additionally assumes
a source texture is bound, as a blit without one faults in both runs. -/
theorem nema_C8_opaque_opacity_noop (ds : NEMAState) (cmd : nema_cmd) (ctx : pipeline_ctx)
    (d : pixman_image) (b2 : Nat)
    (hclip : ds.has_clip_set = true)
    (hdest : ctx.dest_tex = some d)
    (hsurf : ctx.dest_surface = some ())
    (hmask : ctx.mask_tex = none)
    (hm1 : ctx.blending_mode &&& NEMA_BL_MASK = 0)
    (hm2 : ctx.blending_mode &&& NEMA_BL_OPA ≠ 0)
    (hcc : ctx.const_color_set = true)
    (hopa : (ctx.const_color >>> 24) &&& 255 = 255)
    (hb1 : b2 &&& NEMA_BL_MASK = 0)
    (hb2 : b2 &&& NEMA_BL_OPA = 0) :
    (execute_fill_rect ds cmd ctx).map (fun c => c.dest_tex) =
      (execute_fill_rect ds cmd
        { ctx with blending_mode := b2, const_color := 0, const_color_set := false }).map
        (fun c => c.dest_tex) ∧
    (∀ s : pixman_image, ctx.src_tex = some s →
      (execute_blit ds ctx).map (fun c => c.dest_tex) =
        (execute_blit ds
          { ctx with blending_mode := b2, const_color := 0, const_color_set := false }).map
          (fun c => c.dest_tex)) := by
  have hv1 : validate_ctx ds ctx = none :=
    (validate_ctx_eq_none_iff ds ctx).mpr
      ⟨hclip, by simp [hdest], by simp [hsurf], by simp [hm1, hmask], by simp [hm2, hcc]⟩
  have hv2 : validate_ctx ds
      { dest_tex := some d, src_tex := ctx.src_tex, mask_tex := none,
        dest_surface := ctx.dest_surface, src_surface := ctx.src_surface, const_color := 0,
        const_color_set := false, blending_mode := b2,
        blending_option := ctx.blending_option } = none :=
    (validate_ctx_eq_none_iff ds _).mpr
      ⟨hclip, by simp, by simp [hsurf], by simp [hb1], by simp [hb2]⟩
  have hwL : d.width ≤ (if d.width % 4 = 0 then d.width else ((d.width >>> 2) + 1) <<< 2) := by
    rw [stride_roundup_eq]
    omega
  have hblend1 : blend_opacity_if_needed ctx =
      Except.ok
        { ctx with
          mask_tex :=
            some ⟨d.width, d.height,
              (if d.width % 4 = 0 then d.width else ((d.width >>> 2) + 1) <<< 2),
              List.replicate
                (d.height * (if d.width % 4 = 0 then d.width else ((d.width >>> 2) + 1) <<< 2))
                255⟩ } := by
    simp only [blend_opacity_if_needed]
    rw [if_neg hm2, hmask, hdest]
    simp only [hopa]
  have hblend2 : blend_opacity_if_needed
      { dest_tex := some d, src_tex := ctx.src_tex, mask_tex := none,
        dest_surface := ctx.dest_surface, src_surface := ctx.src_surface, const_color := 0,
        const_color_set := false, blending_mode := b2,
        blending_option := ctx.blending_option } =
      Except.ok
        { dest_tex := some d, src_tex := ctx.src_tex, mask_tex := none,
          dest_surface := ctx.dest_surface, src_surface := ctx.src_surface, const_color := 0,
          const_color_set := false, blending_mode := b2,
          blending_option := ctx.blending_option } := by
    unfold blend_opacity_if_needed
    rw [if_pos hb2]
  constructor
  · have e1 : (execute_fill_rect ds cmd ctx).map (fun c => c.dest_tex) =
        Except.ok (some (compositeOver ds.pixman_clip_region
          (fun _ _ => unpackPix cmd.u_int_c)
          (some ⟨d.width, d.height,
            (if d.width % 4 = 0 then d.width else ((d.width >>> 2) + 1) <<< 2),
            List.replicate
              (d.height * (if d.width % 4 = 0 then d.width else ((d.width >>> 2) + 1) <<< 2))
              255⟩)
          d cmd.int_a cmd.int_b cmd.u_int_a cmd.u_int_b)) := by
      simp only [execute_fill_rect, hv1, hblend1, hdest, Except.map]
    have e2 : (execute_fill_rect ds cmd
        { ctx with blending_mode := b2, const_color := 0, const_color_set := false }).map
          (fun c => c.dest_tex) =
        Except.ok (some (compositeOver ds.pixman_clip_region
          (fun _ _ => unpackPix cmd.u_int_c)
          none d cmd.int_a cmd.int_b cmd.u_int_a cmd.u_int_b)) := by
      simp only [execute_fill_rect, hdest, hmask, hv2, hblend2, Except.map]
    rw [e1, e2, compositeOver_uniform255 _ _ _ _ _ _ _ _ hwL (fun x y => unpackPix_le _)]
  · intro s hsrc
    rw [hsrc] at hv2 hblend2
    have e1 : (execute_blit ds ctx).map (fun c => c.dest_tex) =
        Except.ok (some (compositeOver ds.pixman_clip_region
          (fun x y => unpackPix (s.data.getD (y * s.width + x) 0))
          (some ⟨d.width, d.height,
            (if d.width % 4 = 0 then d.width else ((d.width >>> 2) + 1) <<< 2),
            List.replicate
              (d.height * (if d.width % 4 = 0 then d.width else ((d.width >>> 2) + 1) <<< 2))
              255⟩)
          d 0 0 d.width d.height)) := by
      simp only [execute_blit, hv1, hblend1, hdest, hsrc, Except.map]
    have e2 : (execute_blit ds
        { ctx with blending_mode := b2, const_color := 0, const_color_set := false }).map
          (fun c => c.dest_tex) =
        Except.ok (some (compositeOver ds.pixman_clip_region
          (fun x y => unpackPix (s.data.getD (y * s.width + x) 0))
          none d 0 0 d.width d.height)) := by
      simp only [execute_blit, hdest, hmask, hsrc, hv2, hblend2, Except.map]
    rw [e1, e2, compositeOver_uniform255 _ _ _ _ _ _ _ _ hwL (fun x y => unpackPix_le _)]

/-- A 1×1 ARGB source image holding one opaque green pixel. -/
def srcImg : pixman_image := { width := 1, height := 1, stride := 4, data := [0xFF00FF00] }

/-- A context ready for fill or blit with the opacity flag set (blend mode
0x5), fully opaque constant color, and no mask. -/
def ctx8 : pipeline_ctx :=
  { dest_tex := some destImg, src_tex := some srcImg, mask_tex := none, dest_surface := some ()
    src_surface := none, const_color := 0xFF123456, const_color_set := true, blending_mode := 5
    blending_option := blend_option.fill }

/-- C8 witness: on the concrete 1×1 destination, the opaque-opacity fill
and blit agree with their opacity-free counterparts. -/
theorem nema_C8_witness :
    (execute_fill_rect dsC fillCmdC ctx8).map (fun c => c.dest_tex) =
      (execute_fill_rect dsC fillCmdC
        { ctx8 with blending_mode := 1, const_color := 0, const_color_set := false }).map
        (fun c => c.dest_tex) ∧
    (execute_blit dsC ctx8).map (fun c => c.dest_tex) =
      (execute_blit dsC
        { ctx8 with blending_mode := 1, const_color := 0, const_color_set := false }).map
        (fun c => c.dest_tex) :=
  ⟨(nema_C8_opaque_opacity_noop dsC fillCmdC ctx8 destImg 1 rfl rfl rfl rfl
      (by decide) (by decide) rfl (by decide) (by decide) (by decide)).1,
    (nema_C8_opaque_opacity_noop dsC fillCmdC ctx8 destImg 1 rfl rfl rfl rfl
      (by decide) (by decide) rfl (by decide) (by decide) (by decide)).2 srcImg rfl⟩

/-- A BLIT command record. -/
def blitCmd : nema_cmd :=
  { op := NEMA_OP_BLIT, addr_a := 0, addr_b := 0, u_int_8_a := 0, u_int_a := 0, u_int_b := 0
    u_int_c := 0, int_a := 0, int_b := 0, int_c := 0, int_d := 0 }

/-- C2 witness: a BLIT on the clip-never-set state with an empty context
faults, while a FILL_RECT_ROUNDED in the same situation runs through. -/
theorem nema_C2_witness :
    (∃ f, process_cmd ds0 blitCmd initCtx = Except.error f) ∧
    (∃ r, process_cmd ds0 fillRoundedCmd initCtx = Except.ok r) :=
  ⟨(nema_C2_validation_only_fill_blit ds0 blitCmd initCtx).1 (Or.inl rfl) (Or.inl rfl),
    (nema_C2_validation_only_fill_blit ds0 fillRoundedCmd initCtx).2.1 (Or.inr (Or.inl rfl))⟩
